import Mathlib

/-!
Shallow embedding of the identifier / allocation core of the stiny URL
shortener (files `stiny/url.py` and `stiny/controllers.py`).

Python 2 byte strings are modelled as `List Char` restricted to the ASCII
semantics of the C locale, which is what the source relies on
(`str.isalnum`, `str.islower`, `string.lowercase`, `re` with `IGNORECASE`).
Mutating methods are modelled as state-passing functions; a raised Python
exception is an explicit error value carried next to the state that the
mutation has produced up to the point of the raise.
-/

deriving instance DecidableEq for Except

namespace Stiny

abbrev PyStr := List Char

/-- Python 2 / C locale `isupper` on a single byte: `A`..`Z`. -/
def pyIsUpperCh (c : Char) : Bool := 65 ≤ c.toNat && c.toNat ≤ 90

/-- Python 2 / C locale `islower` on a single byte: `a`..`z`. -/
def pyIsLowerCh (c : Char) : Bool := 97 ≤ c.toNat && c.toNat ≤ 122

/-- Python 2 / C locale `isdigit` on a single byte: `0`..`9`. -/
def pyIsDigitCh (c : Char) : Bool := 48 ≤ c.toNat && c.toNat ≤ 57

/-- Python 2 / C locale `isalpha` on a single byte. -/
def pyIsAlphaCh (c : Char) : Bool := pyIsUpperCh c || pyIsLowerCh c

/-- Python 2 `str.isalnum`: non-empty and every byte alphanumeric. -/
def pyIsalnum (l : PyStr) : Bool :=
  !l.isEmpty && l.all (fun c => pyIsAlphaCh c || pyIsDigitCh c)

/-- Python 2 `str.islower`: at least one cased byte and no uppercase byte
(for ASCII the cased bytes are exactly the alphabetic ones). -/
def pyIslower (l : PyStr) : Bool :=
  l.any pyIsAlphaCh && l.all (fun c => !pyIsUpperCh c)

/-- Python `str.split(sep)` for a one-character separator. -/
def pySplit (sep : Char) : PyStr → List PyStr
  | [] => [[]]
  | c :: rest =>
    match pySplit sep rest with
    | [] => [[c]]
    | g :: gs => if c = sep then [] :: g :: gs else (c :: g) :: gs

/-- Exceptions of the embedded code.  `pyTypeError` stands for the Python
`TypeError` raised by `"" + None` in the `tiny_text` getter, and
`attributeError` for an attribute access on `None`. -/
inductive StinyErr where
  | invalidTinyText
  | invalidURL
  | invalidExpiration
  | tooManyNameCollisions
  | tinyURLExists
  | tinyUrlDoesNotExist
  | pyTypeError
  | attributeError
deriving DecidableEq, Repr

/-- The state of a `stiny.url.StaticURL` instance: `_url`, `_expiration`
(always a string after `__init__`), `_tiny_text` and `tiny_text_provided`. -/
structure StaticURL where
  url : PyStr
  expiration : PyStr
  tiny_text : Option PyStr
  tiny_text_provided : Bool
deriving DecidableEq, Repr

/-- The `expiration` property setter: `None` becomes `""`, anything else is
stored as `str(value)`; `f` renders the Python value to its `str` form.
It never raises. -/
def expiration_set {α : Type} (f : α → PyStr) (u : StaticURL) (v : Option α) :
    StaticURL × Option StinyErr :=
  match v with
  | none => ({ u with expiration := [] }, none)
  | some x => ({ u with expiration := f x }, none)

/-- The expression `self.expiration + 'T' if self.expiration else ""` used
by the `tiny_text` getter and by `generate_tiny_text`. -/
def expPart (e : PyStr) : PyStr := if e.isEmpty then [] else e ++ ['T']

/-- The `tiny_text` property getter: serialized identifier
`expiration + "T" + code` (or just the code).  When `_tiny_text` is `None`
the concatenation `"" + None` raises a `TypeError`. -/
def tiny_text_get (u : StaticURL) : Except StinyErr PyStr :=
  match u.tiny_text with
  | none => .error .pyTypeError
  | some t => .ok (expPart u.expiration ++ t)

/-- The `tiny_text` property setter: if the value is a string containing
`'T'` and splitting on `'T'` gives exactly two parts, the left part is
assigned to the `expiration` property and the right part becomes the
candidate code; then the candidate must be `None` or alphanumeric and
lowercase, otherwise `InvalidTinyTextException` is raised (after the
expiration assignment has already happened). -/
def tiny_text_set (u : StaticURL) (t0 : Option PyStr) : StaticURL × Option StinyErr :=
  let s : StaticURL × Option PyStr :=
    match t0 with
    | some s0 =>
      if 'T' ∈ s0 then
        match pySplit 'T' s0 with
        | [a, b] => ((expiration_set (fun x : PyStr => x) u (some a)).1, some b)
        | _ => (u, t0)
      else (u, t0)
    | none => (u, t0)
  match s.2 with
  | none => ({ s.1 with tiny_text := none }, none)
  | some s1 =>
    if pyIsalnum s1 && pyIslower s1 then ({ s.1 with tiny_text := some s1 }, none)
    else (s.1, some StinyErr.invalidTinyText)

/-- `string.lowercase + string.digits`, the alphabet `random.choice` draws
from in `generate_tiny_text`. -/
def tinyAlphabet : List Char := "abcdefghijklmnopqrstuvwxyz0123456789".toList

/-- The run of `random.choice` results: the random number generator is
modelled as a stream `r` of draws, each taken modulo the 36-element
alphabet. -/
def randText (r : Nat → Nat) (n : Nat) : PyStr :=
  (List.range n).map (fun i => tinyAlphabet.getD (r i % 36) 'a')

/-- `StaticURL.generate_tiny_text(length)`: the expiration prefix of the
record followed by `length` random alphabet characters. -/
def generate_tiny_text (r : Nat → Nat) (u : StaticURL) (n : Nat) : PyStr :=
  expPart u.expiration ++ randText r n

/-- Python `str.lower` on a byte (C locale): only `A`..`Z` change. -/
def pyLowerCh (c : Char) : Char :=
  if pyIsUpperCh c then Char.ofNat (c.toNat + 32) else c

/-- Python `\s` for byte strings: space, tab, newline, vertical tab,
form feed, carriage return. -/
def pyIsSpaceCh (c : Char) : Bool :=
  c = ' ' || c = '\t' || c = '\n' || c = '\x0b' || c = '\x0c' || c = '\r'

/-- Alphanumeric character class of the URL regex after lowercasing
(`[A-Z0-9]` under `IGNORECASE`). -/
def isHostAlnum (c : Char) : Bool := pyIsLowerCh c || pyIsDigitCh c

/-- Character class `[A-Z0-9-]` of the URL regex after lowercasing. -/
def isLabelChar (c : Char) : Bool := isHostAlnum c || c = '-'

/-- One domain label of the URL regex:
`[A-Z0-9](?:[A-Z0-9-]{0,61}[A-Z0-9])?` — an alphanumeric character, or an
alphanumeric character, up to 61 label characters, and a final
alphanumeric character. -/
def isLabel : PyStr → Bool
  | [] => false
  | c :: rest =>
    match rest.getLast? with
    | none => isHostAlnum c
    | some d =>
      isHostAlnum c && isHostAlnum d && rest.dropLast.all isLabelChar &&
        rest.dropLast.length ≤ 61

/-- Final domain component alternatives without the optional dot:
`[A-Z]{2,6}` or `[A-Z0-9-]{2,}` (lowercased). -/
def isTldCore (x : PyStr) : Bool :=
  (2 ≤ x.length && x.length ≤ 6 && x.all pyIsLowerCh) ||
  (2 ≤ x.length && x.all isLabelChar)

/-- Final domain component with its optional trailing dot. -/
def isTld (l : PyStr) : Bool :=
  isTldCore l ||
  (match l.getLast? with
   | some c => c = '.' && isTldCore l.dropLast
   | none => false)

/-- All decompositions of a list into a prefix/suffix pair; a regex matches
a sequence of sub-patterns exactly when some decomposition matches them
pointwise. -/
def splitsOf (l : PyStr) : List (PyStr × PyStr) :=
  (List.range (l.length + 1)).map (fun i => (l.take i, l.drop i))

/-- Domain alternative `(?:LABEL\.)+(?:TLD)`; the fuel only bounds the
recursion depth and is ample since every step consumes a label and a dot. -/
def domainMatchAux : Nat → PyStr → Bool
  | 0, _ => false
  | fuel + 1, l =>
    (splitsOf l).any (fun p =>
      isLabel p.1 &&
      (match p.2 with
       | '.' :: rest => isTld rest || domainMatchAux fuel rest
       | _ => false))

def domainMatch (l : PyStr) : Bool := domainMatchAux (l.length + 1) l

/-- Dotted-quad alternative `\d{1,3}\.\d{1,3}\.\d{1,3}\.\d{1,3}`. -/
def ipMatch (l : PyStr) : Bool :=
  match pySplit '.' l with
  | [a, b, c, d] =>
    [a, b, c, d].all (fun g => 1 ≤ g.length && g.length ≤ 3 && g.all pyIsDigitCh)
  | _ => false

def hostMatch (l : PyStr) : Bool :=
  domainMatch l || l = "localhost".toList || ipMatch l

/-- Optional port `(?::\d+)?`. -/
def portMatch (l : PyStr) : Bool :=
  l.isEmpty ||
  (match l with
   | ':' :: ds => !ds.isEmpty && ds.all pyIsDigitCh
   | _ => false)

/-- Path alternative `(?:/?|[/?]\S+)`. -/
def pathMatch (l : PyStr) : Bool :=
  l.isEmpty || l = ['/'] ||
  (match l with
   | c :: rest => (c = '/' || c = '?') && !rest.isEmpty && rest.all (fun ch => !pyIsSpaceCh ch)
   | _ => false)

/-- Remainder after `s?://` in the scheme. -/
def schemeTail (l : PyStr) : Option PyStr :=
  match l with
  | 's' :: ':' :: '/' :: '/' :: rest => some rest
  | ':' :: '/' :: '/' :: rest => some rest
  | _ => none

/-- Remainder after `(?:http|ftp)s?://` (input already lowercased). -/
def schemeRest (l : PyStr) : Option PyStr :=
  match l with
  | 'h' :: 't' :: 't' :: 'p' :: rest => schemeTail rest
  | 'f' :: 't' :: 'p' :: rest => schemeTail rest
  | _ => none

/-- Match of the full anchored pattern: scheme, then some decomposition of
the rest into host, optional port and path. -/
def urlBody (l : PyStr) : Bool :=
  match schemeRest l with
  | none => false
  | some rest =>
    (splitsOf rest).any (fun hp =>
      hostMatch hp.1 &&
      (splitsOf hp.2).any (fun pq => portMatch pq.1 && pathMatch pq.2))

/-- `StaticURL._url_valid`: the compiled `IGNORECASE` regex (modelled by
lowercasing the input), whose trailing `$` also matches just before one
final newline. -/
def url_valid (url : PyStr) : Bool :=
  let s := url.map pyLowerCh
  urlBody s ||
  (match s.getLast? with
   | some c => c = '\n' && urlBody s.dropLast
   | none => false)

/-- `StaticURL.__init__(url, tiny_text, expiration)`: validates the URL,
stores the expiration through its setter (here already rendered to `str`),
assigns `tiny_text` through its setter, and records whether a tiny text
was provided.  A setter failure propagates as the constructor failing. -/
def StaticURL.mk? (url : PyStr) (tiny_text : Option PyStr) (expiration : Option PyStr) :
    Except StinyErr StaticURL :=
  if url_valid url then
    let u0 : StaticURL :=
      { url := url
        expiration := (expiration_set (fun x : PyStr => x)
          { url := url, expiration := [], tiny_text := none,
            tiny_text_provided := tiny_text.isSome } expiration).1.expiration
        tiny_text := none
        tiny_text_provided := tiny_text.isSome }
    match tiny_text_set u0 tiny_text with
    | (u1, none) => .ok u1
    | (_, some e) => .error e
  else .error .invalidURL

/-! ### The S3 bucket backend and `S3BucketController` (`controllers.py`)

The bucket is an association list from key names to stored objects; an
object carries its metadata pairs.  `boto` calls are modelled directly on
this map: `get_key` is a lookup returning `None` for a missing key, and a
write installs the key with its metadata. -/

structure Obj where
  metadata : List (PyStr × PyStr)
deriving DecidableEq, Repr

abbrev Bucket := List (PyStr × Obj)

/-- `bucket.get_key(name)`. -/
def bucketGetKey (b : Bucket) (k : PyStr) : Option Obj :=
  match b with
  | [] => none
  | (k', o) :: rest => if k' = k then some o else bucketGetKey rest k

/-- `key.metadata[...]` / `key.get_metadata(...)` lookup. -/
def metaLookup : List (PyStr × PyStr) → PyStr → Option PyStr
  | [], _ => none
  | (k', v) :: rest, k => if k' = k then some v else metaLookup rest k

/-- Writing a key: `new_key` + `set_metadata` + `set_contents_from_string`
installs (or overwrites) the key with the given metadata. -/
def bucketSet (b : Bucket) (k : PyStr) (o : Obj) : Bucket :=
  (k, o) :: b.filter (fun p => p.1 ≠ k)

def tinyUrlKey : PyStr := "tiny_url".toList

def contentTypeKey : PyStr := "Content-Type".toList

def contentTypeHtml : PyStr := "text/html".toList

/-- Configuration fields of `Controller.__init__` used by the claims. -/
structure Controller where
  initial_tiny_length : Nat
  max_retries : Nat
  overwrite : Bool
deriving DecidableEq, Repr

/-- The string branch of `S3BucketController.exists`: a non-`None` name is
looked up in the bucket. -/
def exists_str (b : Bucket) (s : PyStr) : Bool := (bucketGetKey b s).isSome

/-- The argument of `exists`: either a `StaticURL`, or the raw value of a
`tiny_text` (a string or `None`). -/
inductive UrlArg where
  | record (u : StaticURL)
  | raw (s : Option PyStr)

/-- `S3BucketController.exists`, instrumented with the number of backend
(`get_key`) calls it performs.  A `StaticURL` argument is first replaced by
its `tiny_text` property, whose getter raises a `TypeError` when no tiny
text is assigned; then `None` returns `False` with no backend call and any
string is looked up. -/
def S3existsT (b : Bucket) (a : UrlArg) : Except StinyErr (Bool × Nat) :=
  match a with
  | .record u =>
    match tiny_text_get u with
    | .error e => .error e
    | .ok t => .ok (exists_str b t, 1)
  | .raw none => .ok (false, 0)
  | .raw (some s) => .ok (exists_str b s, 1)

/-- Result of the collision loop in `_select_available_tiny_text`:
the (mutated) record, the pending exception if one was raised inside the
loop, the `key_selected` flag, and the number of candidates generated. -/
structure SelectResult where
  record : StaticURL
  err : Option StinyErr
  key_selected : Bool
  generated : Nat
deriving DecidableEq, Repr

/-- The `while not key_selected and retries < self.max_retries` loop.
Each iteration assigns a fresh candidate through the `tiny_text` setter
(which can itself raise), then queries `exists` on the serialized text; on
a collision `tiny_text_length` grows by one only when `retries > 1`, and
`retries` grows by one.  `seed retries` is the random stream of that
iteration; the fuel equals `max_retries - retries` on every real call, so
the zero-fuel arm coincides with the loop guard failing. -/
def select_loop (seed : Nat → Nat → Nat) (b : Bucket) (max_retries : Nat) :
    Nat → StaticURL → Nat → Nat → Nat → SelectResult
  | 0, u, _, _, gen =>
    { record := u, err := none, key_selected := false, generated := gen }
  | fuel + 1, u, retries, len, gen =>
    if retries < max_retries then
      match tiny_text_set u (some (generate_tiny_text (seed retries) u len)) with
      | (u', some e) =>
        { record := u', err := some e, key_selected := false, generated := gen + 1 }
      | (u', none) =>
        match tiny_text_get u' with
        | .error e =>
          { record := u', err := some e, key_selected := false, generated := gen + 1 }
        | .ok ser =>
          if exists_str b ser then
            select_loop seed b max_retries fuel u' (retries + 1)
              (if retries > 1 then len + 1 else len) (gen + 1)
          else
            { record := u', err := none, key_selected := true, generated := gen + 1 }
    else
      { record := u, err := none, key_selected := false, generated := gen }

/-- Outcome of `_select_available_tiny_text`: the mutated record, the
raised exception if any, and (instrumentation) the number of generated
candidates. -/
structure AllocResult where
  record : StaticURL
  err : Option StinyErr
  generated : Nat
deriving DecidableEq, Repr

/-- `S3BucketController._select_available_tiny_text`: run the loop from
`retries = 0` and the configured initial length; if it ends without a
selected key, reset `tiny_text` to `None` and raise
`TooManyNameCollisions`. -/
def select_available_tiny_text (seed : Nat → Nat → Nat) (c : Controller)
    (b : Bucket) (u : StaticURL) : AllocResult :=
  let r := select_loop seed b c.max_retries c.max_retries u 0 c.initial_tiny_length 0
  match r.err with
  | some e => { record := r.record, err := some e, generated := r.generated }
  | none =>
    if r.key_selected then
      { record := r.record, err := none, generated := r.generated }
    else
      { record := (tiny_text_set r.record none).1,
        err := some .tooManyNameCollisions, generated := r.generated }

/-- The write tail of `put`: serialize the tiny text (the getter can raise)
and install the key with the `tiny_url` and `Content-Type` metadata. -/
def S3putWrite (b : Bucket) (u : StaticURL) : Bucket × StaticURL × Option StinyErr :=
  match tiny_text_get u with
  | .error e => (b, u, some e)
  | .ok t =>
    (bucketSet b t { metadata := [(tinyUrlKey, u.url), (contentTypeKey, contentTypeHtml)] },
     u, none)

/-- `S3BucketController.put`: when no tiny text was provided, auto-select
one (a failure there propagates with the bucket untouched); when one was
provided and `overwrite` is off, an existing key raises
`TinyURLExistsException` before any write; otherwise write. -/
def S3put (seed : Nat → Nat → Nat) (c : Controller) (b : Bucket) (u : StaticURL) :
    Bucket × StaticURL × Option StinyErr :=
  if u.tiny_text_provided = false then
    let r := select_available_tiny_text seed c b u
    match r.err with
    | some e => (b, r.record, some e)
    | none => S3putWrite b r.record
  else
    if c.overwrite = false then
      match tiny_text_get u with
      | .error e => (b, u, some e)
      | .ok t =>
        if exists_str b t then (b, u, some .tinyURLExists)
        else S3putWrite b u
    else S3putWrite b u

/-- `S3BucketController.validate`: `self.exists(url)` (record path: the
getter serializes the identifier), and on existence the stored `tiny_url`
metadata is compared with `url.url`; `get_metadata` yields `None` for a
missing key, which compares unequal to any string. -/
def S3validate (b : Bucket) (u : StaticURL) : Except StinyErr Bool :=
  match tiny_text_get u with
  | .error e => .error e
  | .ok t =>
    if exists_str b t then
      match bucketGetKey b t with
      | none => .error .attributeError
      | some o => .ok (decide (metaLookup o.metadata tinyUrlKey = some u.url))
    else .ok false

/-- `S3BucketController.list`: iterate the bucket keys; for each, refetch
the key and read `metadata["tiny_url"]` — a missing entry raises
`KeyError`, which is caught and skips the object; then yield
`StaticURL(href, key.key)`, whose constructor can raise and abort the
enumeration.  The result is the list of yielded records together with the
exception that ended the enumeration early, if any. -/
def S3listAux (b : Bucket) : List (PyStr × Obj) → List StaticURL × Option StinyErr
  | [] => ([], none)
  | (k, _) :: rest =>
    match bucketGetKey b k with
    | none => ([], some .attributeError)
    | some obj =>
      match metaLookup obj.metadata tinyUrlKey with
      | none => S3listAux b rest
      | some href =>
        match StaticURL.mk? href (some k) none with
        | .error e => ([], some e)
        | .ok u =>
          let r := S3listAux b rest
          (u :: r.1, r.2)

def S3list (b : Bucket) : List StaticURL × Option StinyErr := S3listAux b b

/-- Candidate length at attempt `i` of the collision loop when it starts
at `L`: the length grows by one at every collision from the third on
(`retries > 1`), so after `i` collisions it is `L + (i - 2)` (truncated
subtraction). -/
def attemptLen (L i : Nat) : Nat := L + (i - 2)

/-- The serialized candidate probed at attempt `i` of the loop for a
record with expiration `e`: the loop only reads the expiration (unchanged
throughout when it is `'T'`-free), the attempt index and the length
schedule. -/
def candAt (seed : Nat → Nat → Nat) (e : PyStr) (L i : Nat) : PyStr :=
  expPart e ++ randText (seed i) (attemptLen L i)

/-! ### Concrete instances used by counterexamples and witnesses -/

def exUrl : PyStr := "http://example.com".toList

/-- A stored object carrying no metadata. -/
def obj0 : Obj := ⟨[]⟩

/-- A stored object whose `tiny_url` metadata is `exUrl`. -/
def objM : Obj := ⟨[(tinyUrlKey, exUrl)]⟩

/-- Random stream: attempt `i` repeatedly draws alphabet character `i`,
so attempt 0 generates `aaa…`, attempt 1 `bbb…`, and so on. -/
def seedIx : Nat → Nat → Nat := fun i _ => i

/-- A record constructed without a tiny text. -/
def uPlain : StaticURL := ⟨exUrl, [], none, false⟩

/-- A record with caller-supplied tiny text `abc`. -/
def uAbc : StaticURL := ⟨exUrl, [], some "abc".toList, true⟩

/-- A record state holding the digit-only short code `123`. -/
def u123 : StaticURL := ⟨exUrl, [], some "123".toList, true⟩

/-- A record with expiration `7` and short code `ab3`. -/
def uExp : StaticURL := ⟨exUrl, "7".toList, some "ab3".toList, true⟩

/-- A bucket making the first two generated candidates of `seedIx` (with
initial length 4) collide. -/
def bColl2 : Bucket := [("aaaa".toList, obj0), ("bbbb".toList, obj0)]

/-- A bucket making the first five generated candidates of `seedIx` (with
initial length 4) collide: lengths 4, 4, 4, 5, 6. -/
def bColl5 : Bucket :=
  [("aaaa".toList, obj0), ("bbbb".toList, obj0), ("cccc".toList, obj0),
   ("ddddd".toList, obj0), ("eeeeee".toList, obj0)]

/-- A bucket with a single tiny entry under key `abc`. -/
def bAbc : Bucket := [("abc".toList, objM)]

/-- A bucket whose second object carries `tiny_url` metadata but an
invalid key name (`A1`, uppercase). -/
def bList3 : Bucket :=
  [("abc".toList, objM), ("A1".toList, objM), ("xyz".toList, objM)]

/-- A bucket with one tiny entry and one metadata-less object. -/
def bListOk : Bucket := [("abc".toList, objM), ("skip".toList, obj0)]

/-! ### Helper lemmas -/

lemma pyIsLowerCh_isAlpha {c : Char} (h : pyIsLowerCh c = true) : pyIsAlphaCh c = true := by
  simp [pyIsAlphaCh, h]

lemma lower_or_digit_not_upper {c : Char}
    (h : (pyIsLowerCh c || pyIsDigitCh c) = true) : pyIsUpperCh c = false := by
  simp [pyIsLowerCh, pyIsDigitCh, pyIsUpperCh] at *
  omega

lemma lower_or_digit_alnum {c : Char}
    (h : (pyIsLowerCh c || pyIsDigitCh c) = true) : (pyIsAlphaCh c || pyIsDigitCh c) = true := by
  simp [pyIsAlphaCh, pyIsLowerCh, pyIsDigitCh, pyIsUpperCh] at *
  omega

lemma alnum_not_upper_lower {c : Char}
    (h1 : (pyIsAlphaCh c || pyIsDigitCh c) = true) (h2 : pyIsUpperCh c = false) :
    (pyIsLowerCh c || pyIsDigitCh c) = true := by
  simp [pyIsAlphaCh, pyIsLowerCh, pyIsDigitCh, pyIsUpperCh] at *
  omega

lemma alpha_not_upper_lower {c : Char}
    (h1 : pyIsAlphaCh c = true) (h2 : pyIsUpperCh c = false) : pyIsLowerCh c = true := by
  simp [pyIsAlphaCh, pyIsLowerCh, pyIsDigitCh, pyIsUpperCh] at *
  omega

lemma lower_or_digit_ne_T {c : Char}
    (h : (pyIsLowerCh c || pyIsDigitCh c) = true) : c ≠ 'T' := by
  rintro rfl
  simp [pyIsLowerCh, pyIsDigitCh] at h

lemma pySplit_not_mem {sep : Char} : ∀ {l : PyStr}, sep ∉ l → pySplit sep l = [l]
  | [], _ => rfl
  | c :: rest, h => by
    have hc : c ≠ sep := fun hch => h (hch ▸ List.mem_cons_self c rest)
    have hrest : sep ∉ rest := fun hm => h (List.mem_cons_of_mem c hm)
    simp [pySplit, pySplit_not_mem hrest, hc]

lemma pySplit_sep_once {sep : Char} {b : PyStr} :
    ∀ {a : PyStr}, sep ∉ a → sep ∉ b → pySplit sep (a ++ sep :: b) = [a, b]
  | [], _, hb => by simp [pySplit, pySplit_not_mem hb]
  | c :: a', ha, hb => by
    have hc : c ≠ sep := fun hch => ha (hch ▸ List.mem_cons_self c a')
    have ha' : sep ∉ a' := fun hm => ha (List.mem_cons_of_mem c hm)
    simp [pySplit, pySplit_sep_once ha' hb, hc]

lemma alphabet_chars :
    tinyAlphabet.all (fun c => (pyIsLowerCh c || pyIsDigitCh c) && c ≠ 'T') = true := by
  decide

lemma getD_mem_or_default (l : List Char) (i : Nat) (d : Char) :
    l.getD i d ∈ l ∨ l.getD i d = d := by
  induction l generalizing i with
  | nil => right; rfl
  | cons c rest ih =>
    cases i with
    | zero => left; exact List.mem_cons_self c rest
    | succ j =>
      rcases ih j with h | h
      · left; exact List.mem_cons_of_mem c h
      · right; exact h

lemma randText_mem {r : Nat → Nat} {n : Nat} :
    ∀ c ∈ randText r n, c ∈ tinyAlphabet := by
  intro c hc
  simp only [randText, List.mem_map, List.mem_range] at hc
  obtain ⟨i, _, rfl⟩ := hc
  rcases getD_mem_or_default tinyAlphabet (r i % 36) 'a' with h | h
  · exact h
  · rw [h]; decide

lemma randText_length (r : Nat → Nat) (n : Nat) : (randText r n).length = n := by
  simp [randText]

lemma randText_lower_or_digit {r : Nat → Nat} {n : Nat} :
    ∀ c ∈ randText r n, (pyIsLowerCh c || pyIsDigitCh c) = true := by
  intro c hc
  have hm := randText_mem c hc
  have := alphabet_chars
  rw [List.all_eq_true] at this
  have h2 := this c hm
  simp only [Bool.and_eq_true, decide_eq_true_eq] at h2
  exact h2.1

lemma randText_not_T {r : Nat → Nat} {n : Nat} : 'T' ∉ randText r n := by
  intro h
  have := lower_or_digit_ne_T (randText_lower_or_digit 'T' h)
  exact this rfl

/-- Assigning a freshly generated candidate through the `tiny_text` setter:
given an expiration free of `'T'` and a candidate tail of alphabet
characters containing at least one letter, the assignment succeeds and
stores the tail, leaving every other field unchanged. -/
lemma tiny_text_set_gen (u : StaticURL) (rand : PyStr)
    (hT : 'T' ∉ u.expiration)
    (hld : ∀ c ∈ rand, (pyIsLowerCh c || pyIsDigitCh c) = true)
    (halpha : rand.any pyIsAlphaCh = true) :
    tiny_text_set u (some (expPart u.expiration ++ rand)) =
      ({ u with tiny_text := some rand }, none) := by
  have hTr : 'T' ∉ rand := by
    intro h
    exact lower_or_digit_ne_T (hld 'T' h) rfl
  have hne : rand ≠ [] := by
    rintro rfl
    simp at halpha
  have hvalid : (pyIsalnum rand && pyIslower rand) = true := by
    rw [Bool.and_eq_true]
    constructor
    · rw [pyIsalnum, Bool.and_eq_true, List.all_eq_true]
      exact ⟨by simpa using hne, fun c hc => lower_or_digit_alnum (hld c hc)⟩
    · rw [pyIslower, Bool.and_eq_true, List.all_eq_true]
      refine ⟨halpha, fun c hc => ?_⟩
      simpa using lower_or_digit_not_upper (hld c hc)
  by_cases he : u.expiration.isEmpty
  · have h0 : expPart u.expiration = [] := by simp [expPart, he]
    rw [h0, List.nil_append, tiny_text_set]
    simp only [if_neg (by simpa using hTr)]
    simp [hvalid]
  · have h0 : expPart u.expiration = u.expiration ++ ['T'] := by simp [expPart, he]
    rw [h0, tiny_text_set]
    have hsp : pySplit 'T' (u.expiration ++ 'T' :: rand) = [u.expiration, rand] :=
      pySplit_sep_once hT hTr
    have hmemT : 'T' ∈ u.expiration ++ ['T'] ++ rand := by simp
    simp only [List.append_assoc, List.singleton_append, if_pos hmemT, hsp]
    simp [hvalid, expiration_set]

/-- Reading the `tiny_text` of a record whose tiny text is assigned. -/
lemma tiny_text_get_some (u : StaticURL) (t : PyStr) (h : u.tiny_text = some t) :
    tiny_text_get u = .ok (expPart u.expiration ++ t) := by
  simp [tiny_text_get, h]

/-- `url.tiny_text = None` stores `None` and raises nothing. -/
lemma tiny_text_set_none (u : StaticURL) :
    tiny_text_set u none = ({ u with tiny_text := none }, none) := by
  simp [tiny_text_set]

lemma attemptLen_step (L r : Nat) :
    (if r > 1 then attemptLen L r + 1 else attemptLen L r) = attemptLen L (r + 1) := by
  simp only [attemptLen]
  split <;> omega

/-- One iteration of the loop whose candidate assignment succeeds. -/
lemma select_loop_step (seed : Nat → Nat → Nat) (b : Bucket) (m f : Nat)
    (url e : PyStr) (p : Bool) (t : Option PyStr) (r len gen : Nat)
    (hr : r < m) (rand : PyStr)
    (hset : tiny_text_set ⟨url, e, t, p⟩
        (some (generate_tiny_text (seed r) ⟨url, e, t, p⟩ len)) =
      (⟨url, e, some rand, p⟩, none)) :
    select_loop seed b m (f + 1) ⟨url, e, t, p⟩ r len gen =
      if exists_str b (expPart e ++ rand) then
        select_loop seed b m f ⟨url, e, some rand, p⟩ (r + 1)
          (if r > 1 then len + 1 else len) (gen + 1)
      else
        { record := ⟨url, e, some rand, p⟩, err := none, key_selected := true,
          generated := gen + 1 } := by
  simp only [select_loop]
  rw [if_pos hr, hset]
  rfl

/-- Collision loop, success case: if the first `k` candidates collide and
candidate `k` is free, the loop starting at attempt `r ≤ k` selects
candidate `k` after `k - r + 1` generations. -/
lemma select_loop_success (seed : Nat → Nat → Nat) (b : Bucket) (m : Nat)
    (url e : PyStr) (p : Bool) (L k : Nat)
    (hT : 'T' ∉ e)
    (hletters : ∀ i, i ≤ k → (randText (seed i) (attemptLen L i)).any pyIsAlphaCh = true)
    (hcoll : ∀ i, i < k → exists_str b (candAt seed e L i) = true)
    (hfree : exists_str b (candAt seed e L k) = false)
    (hk : k < m) :
    ∀ fuel r t gen, r ≤ k → fuel = m - r →
      select_loop seed b m fuel ⟨url, e, t, p⟩ r (attemptLen L r) gen =
        { record := ⟨url, e, some (randText (seed k) (attemptLen L k)), p⟩,
          err := none, key_selected := true, generated := gen + (k - r) + 1 } := by
  intro fuel
  induction fuel with
  | zero =>
    intro r t gen hr hf
    omega
  | succ f ih =>
    intro r t gen hr hf
    have hrm : r < m := lt_of_le_of_lt hr hk
    have hset := tiny_text_set_gen ⟨url, e, t, p⟩
      (randText (seed r) (attemptLen L r)) hT (fun c hc => randText_lower_or_digit c hc)
      (hletters r hr)
    rw [select_loop_step seed b m f url e p t r (attemptLen L r) gen hrm
      (randText (seed r) (attemptLen L r)) hset]
    rcases Nat.lt_or_ge r k with hlt | hge
    · rw [show (expPart e ++ randText (seed r) (attemptLen L r)) = candAt seed e L r
        from rfl]
      rw [if_pos (hcoll r hlt), attemptLen_step]
      rw [ih (r + 1) (some (randText (seed r) (attemptLen L r))) (gen + 1)
        (by omega) (by omega)]
      congr 1
      omega
    · have hrk : r = k := le_antisymm hr hge
      subst hrk
      rw [show (expPart e ++ randText (seed r) (attemptLen L r)) = candAt seed e L r
        from rfl]
      rw [if_neg (by simp [hfree])]
      congr 1
      omega

/-- Collision loop, exhaustion case: if every candidate up to attempt
`m - 1` collides, the loop ends unselected with `m - r` more generations. -/
lemma select_loop_exhaust (seed : Nat → Nat → Nat) (b : Bucket) (m : Nat)
    (url e : PyStr) (p : Bool) (L : Nat)
    (hT : 'T' ∉ e)
    (hletters : ∀ i, i < m → (randText (seed i) (attemptLen L i)).any pyIsAlphaCh = true)
    (hcoll : ∀ i, i < m → exists_str b (candAt seed e L i) = true) :
    ∀ fuel r t gen, r ≤ m → fuel = m - r →
      ∃ t', select_loop seed b m fuel ⟨url, e, t, p⟩ r (attemptLen L r) gen =
        { record := ⟨url, e, t', p⟩, err := none, key_selected := false,
          generated := gen + (m - r) } := by
  intro fuel
  induction fuel with
  | zero =>
    intro r t gen hr hf
    have hrm : r = m := by omega
    subst hrm
    refine ⟨t, ?_⟩
    rw [select_loop]
    congr 1
    omega
  | succ f ih =>
    intro r t gen hr hf
    have hrm : r < m := by omega
    have hset := tiny_text_set_gen ⟨url, e, t, p⟩
      (randText (seed r) (attemptLen L r)) hT (fun c hc => randText_lower_or_digit c hc)
      (hletters r hrm)
    rw [select_loop_step seed b m f url e p t r (attemptLen L r) gen hrm
      (randText (seed r) (attemptLen L r)) hset]
    rw [show (expPart e ++ randText (seed r) (attemptLen L r)) = candAt seed e L r
      from rfl]
    rw [if_pos (hcoll r hrm), attemptLen_step]
    obtain ⟨t', ht'⟩ := ih (r + 1) (some (randText (seed r) (attemptLen L r)))
      (gen + 1) (by omega) (by omega)
    refine ⟨t', ?_⟩
    rw [ht']
    congr 1
    omega

/-! ### Claim C1 -/

/-- Claim C1, counterexample: with `initial_tiny_length = 4` and a backend
where exactly the first `k = 2` generated candidates exist (`aaaa` and
`bbbb` for `seedIx`, whose third candidate is `cccc`), allocation succeeds
but the selected short code has length `4`, not
`initial_tiny_length + max 0 (k - 1) = 5`: the candidate length has not
yet grown after only two collisions. -/
theorem C1_counterexample :
    (select_available_tiny_text seedIx ⟨4, 5, false⟩ bColl2 uPlain).err = none ∧
    (select_available_tiny_text seedIx ⟨4, 5, false⟩ bColl2 uPlain).record.tiny_text =
      some "cccc".toList ∧
    ¬(("cccc".toList : PyStr).length = 4 + max 0 (2 - 1)) := by
  refine ⟨?_, ?_, ?_⟩ <;> decide

/-- Claim C1 (amended): in the auto-allocation collision loop, given a
backend whose `exists` is true for the first `k < max_retries` candidates
and false for candidate `k`, allocation succeeds and the final short code
has length `initial_tiny_length + (k - 2)` (truncated subtraction, that is
`initial + max(0, k-2)`): the length is incremented only once `retries > 1`
at collision time, i.e. from the third collision on, never on the first
two.  The hypotheses require an expiration free of the separator `'T'` and
candidates containing at least one letter (otherwise the Python setter
itself rejects the candidate). -/
theorem C1_allocation_length (seed : Nat → Nat → Nat) (b : Bucket)
    (L m k : Nat) (ow : Bool) (url e : PyStr) (t : Option PyStr) (p : Bool)
    (hT : 'T' ∉ e)
    (hletters : ∀ i, i ≤ k → (randText (seed i) (attemptLen L i)).any pyIsAlphaCh = true)
    (hcoll : ∀ i, i < k → exists_str b (candAt seed e L i) = true)
    (hfree : exists_str b (candAt seed e L k) = false)
    (hk : k < m) :
    select_available_tiny_text seed ⟨L, m, ow⟩ b ⟨url, e, t, p⟩ =
      { record := ⟨url, e, some (randText (seed k) (L + (k - 2))), p⟩,
        err := none, generated := k + 1 } ∧
    (randText (seed k) (L + (k - 2))).length = L + (k - 2) := by
  have h := select_loop_success seed b m url e p L k hT hletters hcoll hfree hk
    m 0 t 0 (Nat.zero_le k) (by omega)
  have h0 : attemptLen L 0 = L := by simp [attemptLen]
  have hkk : attemptLen L k = L + (k - 2) := rfl
  rw [h0, hkk] at h
  have h2 : (0 : Nat) + (k - 0) + 1 = k + 1 := by omega
  rw [h2] at h
  refine ⟨?_, randText_length _ _⟩
  simp only [select_available_tiny_text]
  rw [h]
  rfl

theorem C1_allocation_length_witness :
    select_available_tiny_text seedIx ⟨4, 5, false⟩ bColl2
        ⟨exUrl, [], none, false⟩ =
      { record := ⟨exUrl, [], some "cccc".toList, false⟩, err := none,
        generated := 3 } := by
  have h := C1_allocation_length seedIx bColl2 4 5 2 false exUrl [] none false
    (by decide)
    (by intro i hi; interval_cases i <;> decide)
    (by intro i hi; interval_cases i <;> decide)
    (by decide) (by decide)
  rw [h.1]
  decide

/-! ### Claim C2 -/

/-- Claim C2 (confirmed): when every candidate the loop can probe exists
in the backend, allocation fails with `TooManyNameCollisions` after
exactly `max_retries` generated candidates and the record's tiny text is
reset to `None`; `put` then propagates the failure with the bucket
untouched, so the whole call can be retried. -/
theorem C2_exhaustion (seed : Nat → Nat → Nat) (b : Bucket)
    (L m : Nat) (ow : Bool) (url e : PyStr) (t : Option PyStr) (p : Bool)
    (hT : 'T' ∉ e)
    (hletters : ∀ i, i < m → (randText (seed i) (attemptLen L i)).any pyIsAlphaCh = true)
    (hcoll : ∀ i, i < m → exists_str b (candAt seed e L i) = true) :
    select_available_tiny_text seed ⟨L, m, ow⟩ b ⟨url, e, t, p⟩ =
      { record := ⟨url, e, none, p⟩, err := some .tooManyNameCollisions,
        generated := m } ∧
    (p = false → S3put seed ⟨L, m, ow⟩ b ⟨url, e, t, p⟩ =
      (b, ⟨url, e, none, p⟩, some .tooManyNameCollisions)) := by
  obtain ⟨t', ht'⟩ := select_loop_exhaust seed b m url e p L hT hletters hcoll
    m 0 t 0 (Nat.zero_le m) (by omega)
  have h0 : attemptLen L 0 = L := by simp [attemptLen]
  rw [h0] at ht'
  have h2 : (0 : Nat) + (m - 0) = m := by omega
  rw [h2] at ht'
  have hsel : select_available_tiny_text seed ⟨L, m, ow⟩ b ⟨url, e, t, p⟩ =
      { record := ⟨url, e, none, p⟩, err := some .tooManyNameCollisions,
        generated := m } := by
    simp only [select_available_tiny_text]
    rw [ht']
    rfl
  refine ⟨hsel, fun hp => ?_⟩
  subst hp
  simp only [S3put]
  rw [if_pos trivial, hsel]

theorem C2_exhaustion_witness :
    select_available_tiny_text seedIx ⟨4, 5, false⟩ bColl5
        ⟨exUrl, [], none, false⟩ =
      { record := ⟨exUrl, [], none, false⟩, err := some .tooManyNameCollisions,
        generated := 5 } := by
  have h := C2_exhaustion seedIx bColl5 4 5 false exUrl [] none false
    (by decide)
    (by intro i hi; interval_cases i <;> decide)
    (by intro i hi; interval_cases i <;> decide)
  exact h.1

/-! ### Claim C3 -/

/-- Claim C3 (confirmed): for a record with a caller-supplied identifier
serializing to `t`, if `overwrite` is off and the backend holds a key `t`,
`put` fails with `TinyURLExistsException` and the bucket is returned
unchanged — no key is created or modified; in every other case the write
proceeds, installing key `t` with the `tiny_url` and `Content-Type`
metadata. -/
theorem C3_overwrite_policy (seed : Nat → Nat → Nat) (c : Controller)
    (b : Bucket) (u : StaticURL) (t : PyStr)
    (hp : u.tiny_text_provided = true)
    (hg : tiny_text_get u = .ok t) :
    (c.overwrite = false → exists_str b t = true →
      S3put seed c b u = (b, u, some .tinyURLExists)) ∧
    (c.overwrite = false → exists_str b t = false →
      S3put seed c b u =
        (bucketSet b t ⟨[(tinyUrlKey, u.url), (contentTypeKey, contentTypeHtml)]⟩,
         u, none)) ∧
    (c.overwrite = true →
      S3put seed c b u =
        (bucketSet b t ⟨[(tinyUrlKey, u.url), (contentTypeKey, contentTypeHtml)]⟩,
         u, none)) := by
  refine ⟨fun hov hex => ?_, fun hov hex => ?_, fun hov => ?_⟩
  · simp [S3put, S3putWrite, hp, hov, hex, hg]
  · simp [S3put, S3putWrite, hp, hov, hex, hg]
  · simp [S3put, S3putWrite, hp, hov, hg]

theorem C3_overwrite_policy_witness :
    S3put seedIx ⟨4, 5, false⟩ bAbc uAbc = (bAbc, uAbc, some .tinyURLExists) := by
  have h := C3_overwrite_policy seedIx ⟨4, 5, false⟩ bAbc uAbc "abc".toList
    (by decide) (by decide)
  exact h.1 rfl (by decide)

/-! ### Claim C4 -/

/-- Claim C4, counterexample: the identifier with empty expiration and
short code `123` is valid by the claim's own criterion (non-empty,
matching `[a-z0-9]+`), and its serialized form is `123`; but assigning
that serialization back through the `tiny_text` setter raises
`InvalidTinyTextException` — Python's `str.islower` is false for a string
with no cased character — so parsing does not return the identifier. -/
theorem C4_counterexample :
    ("123".toList : PyStr).all (fun c => pyIsLowerCh c || pyIsDigitCh c) = true ∧
    tiny_text_get u123 = .ok "123".toList ∧
    (tiny_text_set u123 (some "123".toList)).2 = some .invalidTinyText := by
  refine ⟨?_, ?_, ?_⟩ <;> decide

/-- Claim C4 (amended): the serialize/parse round trip holds for every
record whose expiration is a digit string (possibly empty) and whose short
code is non-empty, drawn from `[a-z0-9]`, and contains at least one
letter: reading `tiny_text` and assigning the result back through the
setter reproduces exactly the same record and raises nothing.  (Digit-only
short codes are excluded: the setter rejects them, see the
counterexample.) -/
theorem C4_roundtrip (u : StaticURL) (s : PyStr)
    (ht : u.tiny_text = some s)
    (hexp : u.expiration.all pyIsDigitCh = true)
    (hchars : s.all (fun c => pyIsLowerCh c || pyIsDigitCh c) = true)
    (hletter : s.any pyIsLowerCh = true) :
    ∀ ser, tiny_text_get u = .ok ser → tiny_text_set u (some ser) = (u, none) := by
  intro ser hser
  rw [tiny_text_get_some u s ht] at hser
  injection hser with hser
  subst hser
  have hT : 'T' ∉ u.expiration := by
    intro hmem
    rw [List.all_eq_true] at hexp
    have := hexp 'T' hmem
    simp [pyIsDigitCh] at this
  have hld : ∀ c ∈ s, (pyIsLowerCh c || pyIsDigitCh c) = true := by
    rw [List.all_eq_true] at hchars
    intro c hc
    simpa using hchars c hc
  have halpha : s.any pyIsAlphaCh = true := by
    rw [List.any_eq_true] at hletter ⊢
    obtain ⟨c, hc, hl⟩ := hletter
    exact ⟨c, hc, by simpa using pyIsLowerCh_isAlpha (by simpa using hl)⟩
  rw [tiny_text_set_gen u s hT hld halpha]
  have : ({ u with tiny_text := some s } : StaticURL) = u := by
    cases u
    simp_all
  rw [this]

theorem C4_roundtrip_witness :
    tiny_text_set uExp (some "7Tab3".toList) = (uExp, none) := by
  have h := C4_roundtrip uExp "ab3".toList rfl (by decide) (by decide) (by decide)
  exact h "7Tab3".toList (by decide)

/-! ### Claim C5 -/

/-- The code's acceptance test `isalnum and islower` is equivalent to:
non-empty, every byte a lowercase letter or digit, and at least one
lowercase letter. -/
lemma pyvalid_iff (s : PyStr) :
    (pyIsalnum s && pyIslower s) = true ↔
      (s ≠ [] ∧ (∀ c ∈ s, (pyIsLowerCh c || pyIsDigitCh c) = true) ∧
        s.any pyIsLowerCh = true) := by
  constructor
  · intro h
    rw [Bool.and_eq_true] at h
    obtain ⟨h1, h2⟩ := h
    rw [pyIsalnum, Bool.and_eq_true, List.all_eq_true] at h1
    rw [pyIslower, Bool.and_eq_true, List.all_eq_true] at h2
    obtain ⟨hne, hall⟩ := h1
    obtain ⟨hany, hnoup⟩ := h2
    refine ⟨by simpa using hne,
      fun c hc => alnum_not_upper_lower (by simpa using hall c hc)
        (by simpa using hnoup c hc), ?_⟩
    rw [List.any_eq_true] at hany ⊢
    obtain ⟨c, hc, ha⟩ := hany
    exact ⟨c, hc, by
      simpa using alpha_not_upper_lower (by simpa using ha)
        (by simpa using hnoup c hc)⟩
  · rintro ⟨hne, hld, hany⟩
    rw [Bool.and_eq_true]
    constructor
    · rw [pyIsalnum, Bool.and_eq_true, List.all_eq_true]
      exact ⟨by simpa using hne, fun c hc => by simpa using lower_or_digit_alnum (hld c hc)⟩
    · rw [pyIslower, Bool.and_eq_true, List.all_eq_true]
      constructor
      · rw [List.any_eq_true] at hany ⊢
        obtain ⟨c, hc, hl⟩ := hany
        exact ⟨c, hc, by simpa using pyIsLowerCh_isAlpha (by simpa using hl)⟩
      · exact fun c hc => by simpa using lower_or_digit_not_upper (hld c hc)

/-- Reducing the setter on a `'T'`-free string to its validation test. -/
lemma tiny_text_set_no_T (u : StaticURL) (s : PyStr) (hT : 'T' ∉ s) :
    tiny_text_set u (some s) =
      if (pyIsalnum s && pyIslower s) = true then ({ u with tiny_text := some s }, none)
      else (u, some .invalidTinyText) := by
  simp only [tiny_text_set]
  rw [if_neg hT]

/-- Claim C5, counterexample: the string `0` is non-empty and matches
`[a-z0-9]+`, yet assigning it as the short code raises
`InvalidTinyTextException`, because Python's `islower` is false on a
string with no cased character. -/
theorem C5_counterexample :
    ("0".toList : PyStr) ≠ [] ∧
    ("0".toList : PyStr).all (fun c => pyIsLowerCh c || pyIsDigitCh c) = true ∧
    tiny_text_set uPlain (some "0".toList) = (uPlain, some .invalidTinyText) := by
  refine ⟨?_, ?_, ?_⟩ <;> decide

/-- Claim C5 (amended): for a string free of the separator `'T'` (so no
expiration prefix is split off), assignment as the record's short code
succeeds exactly when the string is non-empty, every character is in
`[a-z0-9]`, and at least one character is a letter; in every other case
(including the empty string and digit-only strings) it fails with
`InvalidTinyTextException`, leaving the record unchanged. -/
theorem C5_short_code_validation (u : StaticURL) (s : PyStr) (hT : 'T' ∉ s) :
    ((s ≠ [] ∧ (∀ c ∈ s, (pyIsLowerCh c || pyIsDigitCh c) = true) ∧
        s.any pyIsLowerCh = true) →
      tiny_text_set u (some s) = ({ u with tiny_text := some s }, none)) ∧
    (¬(s ≠ [] ∧ (∀ c ∈ s, (pyIsLowerCh c || pyIsDigitCh c) = true) ∧
        s.any pyIsLowerCh = true) →
      tiny_text_set u (some s) = (u, some .invalidTinyText)) := by
  constructor
  · intro hvalid
    rw [tiny_text_set_no_T u s hT, if_pos ((pyvalid_iff s).mpr hvalid)]
  · intro hinvalid
    rw [tiny_text_set_no_T u s hT,
      if_neg (fun hb => hinvalid ((pyvalid_iff s).mp hb))]

theorem C5_short_code_validation_witness :
    tiny_text_set uPlain (some "ab1".toList) =
      ({ uPlain with tiny_text := some "ab1".toList }, none) := by
  have h := C5_short_code_validation uPlain "ab1".toList (by decide)
  exact h.1 (by refine ⟨by decide, by decide, by decide⟩)

/-! ### Claim C6 -/

/-- Claim C6 (confirmed): for every length `n ≥ 1`, `generate_tiny_text`
returns the serialized form — the record's expiration prefix (expiration
plus `'T'` when the expiration is non-empty, nothing otherwise) followed
by exactly `n` generated characters, each drawn from `[a-z0-9]`. -/
theorem C6_generate_charset (r : Nat → Nat) (u : StaticURL) (n : Nat) (_hn : 1 ≤ n) :
    generate_tiny_text r u n = expPart u.expiration ++ randText r n ∧
    (randText r n).length = n ∧
    (∀ c ∈ randText r n, (pyIsLowerCh c || pyIsDigitCh c) = true) ∧
    (u.expiration ≠ [] → expPart u.expiration = u.expiration ++ ['T']) ∧
    (u.expiration = [] → expPart u.expiration = []) := by
  refine ⟨rfl, randText_length r n, fun c hc => randText_lower_or_digit c hc, ?_, ?_⟩
  · intro h
    simp [expPart, h]
  · intro h
    simp [expPart, h]

theorem C6_generate_charset_witness :
    generate_tiny_text (fun j => j) uExp 3 = "7Tabc".toList := by
  have h := C6_generate_charset (fun j => j) uExp 3 (by decide)
  rw [h.1]
  decide

/-! ### Claim C7 -/

/-- Claim C7, counterexample: for a record with no assigned identifier and
an empty backend — so no resource exists — `validate` raises a `TypeError`
while serializing the missing tiny text instead of returning false, so it
is not the case that validate never raises when no resource exists. -/
theorem C7_counterexample :
    S3validate [] uPlain = .error .pyTypeError := by decide

/-- Claim C7 (amended): for every record with an assigned identifier
serializing to `ser`, `validate` returns `false` when no resource is
stored under `ser` (without raising), and otherwise returns `true` exactly
when the stored `tiny_url` metadata equals the record's target
byte-for-byte (a missing metadata entry compares unequal). -/
theorem C7_validate (b : Bucket) (u : StaticURL) (t ser : PyStr)
    (_ht : u.tiny_text = some t)
    (hser : tiny_text_get u = .ok ser) :
    (bucketGetKey b ser = none → S3validate b u = .ok false) ∧
    (∀ o, bucketGetKey b ser = some o →
      S3validate b u = .ok (decide (metaLookup o.metadata tinyUrlKey = some u.url))) := by
  constructor
  · intro hnone
    simp [S3validate, hser, exists_str, hnone]
  · intro o ho
    simp [S3validate, hser, exists_str, ho]

theorem C7_validate_witness :
    S3validate bAbc uAbc = .ok true := by
  have h := C7_validate bAbc uAbc "abc".toList "abc".toList rfl (by decide)
  rw [h.2 objM (by decide)]
  decide

/-! ### Claim C8 -/

/-- Claim C8, counterexample: for a record whose identifier is unassigned,
`exists` does not return false — the `tiny_text` getter raises a
`TypeError` before any decision is made, refuting the claim's "for every
empty or absent identifier input, exists returns false". -/
theorem C8_counterexample :
    S3existsT [] (.record uPlain) = .error .pyTypeError := by decide

/-- Claim C8 (amended): `exists` returns false with zero backend lookups
exactly for a raw `None` argument; any other raw string — including the
empty string — performs one backend lookup and returns whether a resource
is stored under it; a record argument is serialized first, raising a
`TypeError` when the identifier is unassigned, and otherwise performing
one lookup on the serialized key. -/
theorem C8_exists (b : Bucket) :
    S3existsT b (.raw none) = .ok (false, 0) ∧
    (∀ s, S3existsT b (.raw (some s)) = .ok ((bucketGetKey b s).isSome, 1)) ∧
    (∀ u, u.tiny_text = none → S3existsT b (.record u) = .error .pyTypeError) ∧
    (∀ u t, u.tiny_text = some t →
      S3existsT b (.record u) =
        .ok ((bucketGetKey b (expPart u.expiration ++ t)).isSome, 1)) := by
  refine ⟨rfl, fun s => rfl, fun u hu => ?_, fun u t hu => ?_⟩
  · simp [S3existsT, tiny_text_get, hu]
  · simp [S3existsT, tiny_text_get, hu, exists_str]

theorem C8_exists_witness :
    S3existsT bAbc (.record uAbc) = .ok (true, 1) := by
  have h := (C8_exists bAbc).2.2.2 uAbc "abc".toList rfl
  rw [h]
  decide

/-! ### Claim C9 -/

/-- With distinct key names (an S3 invariant), looking a key up finds its
own entry. -/
lemma bucketGetKey_self {b : Bucket} (hnd : (b.map Prod.fst).Nodup) :
    ∀ {k o}, (k, o) ∈ b → bucketGetKey b k = some o := by
  induction b with
  | nil =>
    intro k o h
    simp at h
  | cons p rest ih =>
    intro k o h
    obtain ⟨k', o'⟩ := p
    rw [List.map_cons, List.nodup_cons] at hnd
    obtain ⟨hk', hnd'⟩ := hnd
    rcases List.mem_cons.mp h with heq | hmem
    · injection heq with h1 h2
      subst h1
      subst h2
      rw [bucketGetKey, if_pos rfl]
    · have hne : k' ≠ k := by
        intro hkk
        subst hkk
        exact hk' (List.mem_map.mpr ⟨(k', o), hmem, rfl⟩)
      rw [bucketGetKey, if_neg hne]
      exact ih hnd' hmem

/-- The enumeration yields one record per metadata-carrying entry and
skips the rest, provided each lookup finds the entry itself and each
metadata-carrying entry constructs successfully. -/
lemma S3listAux_spec (b : Bucket)
    (hb : ∀ p ∈ b, bucketGetKey b p.1 = some p.2) :
    ∀ entries : List (PyStr × Obj), (∀ p ∈ entries, p ∈ b) →
      (∀ p ∈ entries, (metaLookup p.2.metadata tinyUrlKey).all
        (fun href => (StaticURL.mk? href (some p.1) none).toOption.isSome) = true) →
      S3listAux b entries =
        (entries.filterMap (fun p =>
          (metaLookup p.2.metadata tinyUrlKey).bind
            (fun href => (StaticURL.mk? href (some p.1) none).toOption)), none) := by
  intro entries
  induction entries with
  | nil =>
    intro _ _
    simp [S3listAux]
  | cons p rest ih =>
    intro hmem hgood
    obtain ⟨k, o⟩ := p
    have hk : bucketGetKey b k = some o := hb (k, o) (hmem (k, o) (List.mem_cons_self _ _))
    have hrest := ih (fun q hq => hmem q (List.mem_cons_of_mem _ hq))
      (fun q hq => hgood q (List.mem_cons_of_mem _ hq))
    cases hml : metaLookup o.metadata tinyUrlKey with
    | none =>
      simp only [S3listAux, hk, hml, hrest]
      simp [List.filterMap_cons, hml]
    | some href =>
      have hg := hgood (k, o) (List.mem_cons_self _ _)
      rw [hml] at hg
      simp only [Option.all_some] at hg
      cases hmk : StaticURL.mk? href (some k) none with
      | error e =>
        rw [hmk] at hg
        simp [Except.toOption] at hg
      | ok rec =>
        simp only [S3listAux, hk, hml, hmk, hrest]
        simp [List.filterMap_cons, hml, hmk, Except.toOption]

/-- Claim C9, counterexample: in a bucket of three objects all carrying
`tiny_url` metadata, one of them stored under the invalid key name `A1`,
the enumeration yields only one record and then aborts with
`InvalidTinyTextException`: only `KeyError` (missing metadata) is caught,
so it is not the case that one record is yielded per metadata-carrying
object. -/
theorem C9_counterexample :
    bList3.countP (fun p => (metaLookup p.2.metadata tinyUrlKey).isSome) = 3 ∧
    (S3list bList3).1.length = 1 ∧
    (S3list bList3).2 = some .invalidTinyText := by
  refine ⟨?_, ?_, ?_⟩ <;> decide

/-- Claim C9 (amended): for every bucket with distinct key names in which
every object carrying `tiny_url` metadata has a valid target URL and a
valid key name (its `StaticURL` construction succeeds), `list` completes
without error, yielding exactly one record per metadata-carrying object,
in bucket order, and skipping every object lacking the metadata.  In
general an object whose metadata or key makes the record constructor raise
aborts the enumeration (see the counterexample). -/
theorem C9_list (b : Bucket)
    (hnd : (b.map Prod.fst).Nodup)
    (hgood : ∀ p ∈ b, (metaLookup p.2.metadata tinyUrlKey).all
      (fun href => (StaticURL.mk? href (some p.1) none).toOption.isSome) = true) :
    S3list b =
      (b.filterMap (fun p =>
        (metaLookup p.2.metadata tinyUrlKey).bind
          (fun href => (StaticURL.mk? href (some p.1) none).toOption)), none) :=
  S3listAux_spec b (fun _ hp => bucketGetKey_self hnd hp) b (fun _ hp => hp) hgood

theorem C9_list_witness :
    S3list bListOk = ([⟨exUrl, [], some "abc".toList, true⟩], none) := by
  have h := C9_list bListOk (by decide) (by decide)
  rw [h]
  decide

/-! ### Claim C10 -/

/-- The `tiny_text` setter raises only `InvalidTinyTextException`. -/
lemma tiny_text_set_err (u : StaticURL) (t : Option PyStr) :
    (tiny_text_set u t).2 = none ∨ (tiny_text_set u t).2 = some .invalidTinyText := by
  simp only [tiny_text_set]
  split
  · left
    rfl
  · split
    · left
      rfl
    · right
      rfl

/-- The `tiny_text` getter raises only `TypeError`. -/
lemma tiny_text_get_err (u : StaticURL) (e : StinyErr)
    (h : tiny_text_get u = .error e) : e = .pyTypeError := by
  cases ht : u.tiny_text with
  | none =>
    rw [tiny_text_get, ht] at h
    injection h with h
    exact h.symm
  | some t =>
    rw [tiny_text_get, ht] at h
    simp at h

/-- The collision loop never produces `InvalidExpirationException`: its
only error sources are the `tiny_text` setter and getter. -/
lemma select_loop_err (seed : Nat → Nat → Nat) (b : Bucket) (m : Nat) :
    ∀ fuel u r len gen,
      (select_loop seed b m fuel u r len gen).err = none ∨
      (select_loop seed b m fuel u r len gen).err = some .invalidTinyText ∨
      (select_loop seed b m fuel u r len gen).err = some .pyTypeError := by
  intro fuel
  induction fuel with
  | zero =>
    intro u r len gen
    left
    rfl
  | succ f ih =>
    intro u r len gen
    simp only [select_loop]
    split
    · split
      · rename_i u' e heq
        have hcl := tiny_text_set_err u (some (generate_tiny_text (seed r) u len))
        rw [heq] at hcl
        simp only [Option.some.injEq] at hcl
        rcases hcl with hcl | hcl
        · exact absurd hcl (by simp)
        · right
          left
          simp [hcl]
      · split
        · rename_i heq2
          right
          right
          simp [tiny_text_get_err _ _ heq2]
        · split
          · exact ih _ _ _ _
          · left
            rfl
    · left
      rfl

/-- `_select_available_tiny_text` never raises
`InvalidExpirationException`. -/
lemma select_available_err (seed : Nat → Nat → Nat) (c : Controller)
    (b : Bucket) (u : StaticURL) :
    (select_available_tiny_text seed c b u).err ≠ some .invalidExpiration := by
  have h := select_loop_err seed b c.max_retries c.max_retries u 0 c.initial_tiny_length 0
  simp only [select_available_tiny_text]
  rcases h with h | h | h <;> rw [h] <;> simp <;> split <;> simp

/-- The write tail of `put` never raises `InvalidExpirationException`. -/
lemma S3putWrite_err (b : Bucket) (u : StaticURL) :
    (S3putWrite b u).2.2 ≠ some .invalidExpiration := by
  simp only [S3putWrite]
  split
  · rename_i e heq
    simp [tiny_text_get_err _ _ heq]
  · simp

/-- Claim C10 (confirmed): setting a record's expiration is total and
never raises — it stores the empty string for `None` and the `str`
rendering of any other value, with no validation — and `put` (hence every
operation it invokes) never raises `InvalidExpirationException`. -/
theorem C10_expiration_total :
    (∀ (α : Type) (f : α → PyStr) (u : StaticURL) (v : Option α),
      (expiration_set f u v).2 = none ∧
      (expiration_set f u v).1 =
        { u with expiration := match v with | none => [] | some x => f x }) ∧
    (∀ (seed : Nat → Nat → Nat) (c : Controller) (b : Bucket) (u : StaticURL),
      (S3put seed c b u).2.2 ≠ some .invalidExpiration) := by
  constructor
  · intro α f u v
    cases v <;> exact ⟨rfl, rfl⟩
  · intro seed c b u
    simp only [S3put]
    split
    · split
      · rename_i e heq
        have := select_available_err seed c b u
        rw [heq] at this
        simp only [ne_eq, Option.some.injEq] at this
        simp [this]
      · exact S3putWrite_err b _
    · split
      · split
        · rename_i e heq
          simp [tiny_text_get_err _ _ heq]
        · split
          · simp
          · exact S3putWrite_err b u
      · exact S3putWrite_err b u

end Stiny
